import Mathlib

/-!
Shallow embedding of `src/Canvas.js` (the Canvas pixel-filter engine).

Machine numbers are modelled as `ℤ`/`ℕ` for byte channels and `ℚ` for the
alpha channel and compositing alphas (JS numbers; every value occurring in
these operations is exactly representable).  The surface (the 2D context) is
an external resource: interactions with it — `putImageData` commits and
`drawImage` compositing calls — are recorded as an event trace, and the
context's `globalAlpha` is carried in the `Canvas` state.  Repository code
that is referenced by `Canvas.js` but lives outside `src/` (the `RGBA`/`RGB`
color-value prototypes and the global filter functions such as `invert` and
`mutate`) is abstracted: filter functions are parameters of type
`RGBA → RGBA`, the global registry `$[name]` and the `RGBA.prototype` method
table are parameters of type `String → Option _`.
-/

namespace CanvasJS

/-- Modelled from the spec: the RGBA color value (its constructor lives
outside `src/`).  Four components: red, green, blue integers in `[0,255]`,
alpha a float in `[0,1]`.  The engine only ever constructs it from in-range
buffer bytes, where construction is component-wise. -/
structure RGBA where
  red : ℤ
  green : ℤ
  blue : ℤ
  alpha : ℚ
deriving DecidableEq

/-- Modelled from the spec: `invert` maps each RGB channel `v` to `255 - v`
and leaves alpha unchanged (`src/` only calls it; its body lives outside
`src/`). -/
def invert (c : RGBA) : RGBA :=
  ⟨255 - c.red, 255 - c.green, 255 - c.blue, c.alpha⟩

/-- Assignment into a `Uint8ClampedArray` (`ImageData.data`): an integer is
clamped to `[0,255]`. -/
def clampByte (x : ℤ) : ℕ :=
  (max 0 (min 255 x)).toNat

/-- JavaScript `Math.round`: round half toward positive infinity. -/
def jsRound (q : ℚ) : ℤ :=
  ⌊q + 1/2⌋

/-- Interactions of the engine with the external surface and buffer:
per-pixel buffer reads/writes inside a filter loop, `putImageData`
commits (carrying the committed bytes), and `drawImage` compositing
calls (carrying the translation offset and the `globalAlpha` in force). -/
inductive Event where
  | read (i : ℕ)
  | write (i : ℕ)
  | commit (bytes : List ℕ)
  | draw (dx dy : ℤ) (alpha : ℚ)
deriving DecidableEq

/-- True exactly on `putImageData` commit events. -/
def Event.isCommit : Event → Bool
  | .commit _ => true
  | _ => false

/-- True exactly on `drawImage` events. -/
def Event.isDraw : Event → Bool
  | .draw _ _ _ => true
  | _ => false

/-- The `Canvas` object state (`Canvas.js` lines 59-83): cached `width`,
`height`, `length = width*height`, the flat RGBA byte buffer `data`
(`length*4` bytes), and the context's `globalAlpha`. -/
structure Canvas where
  width : ℕ
  height : ℕ
  length : ℕ
  data : List ℕ
  globalAlpha : ℚ
deriving DecidableEq

/-- `Canvas.prototype.isSet` (line 89): `this.length > 0`. -/
def Canvas.isSet (c : Canvas) : Bool :=
  decide (0 < c.length)

/-- Reading pixel `i` of the buffer into an RGBA value:
`new RGBA(data[4i], data[4i+1], data[4i+2], data[4i+3] / 255)`
(lines 108 and 133). -/
def pixelColor (data : List ℕ) (i : ℕ) : RGBA :=
  ⟨(data.getD (4 * i) 0 : ℤ), (data.getD (4 * i + 1) 0 : ℤ),
   (data.getD (4 * i + 2) 0 : ℤ), (data.getD (4 * i + 3) 0 : ℚ) / 255⟩

/-- Writing a color back to pixel `i` of the buffer (lines 109-112 and
138-141): the three channels are stored clamped, the alpha channel as
`Math.round(alpha * 255)` clamped. -/
def writeColor (data : List ℕ) (i : ℕ) (c : RGBA) : List ℕ :=
  ((((data.set (4 * i) (clampByte c.red)).set (4 * i + 1)
      (clampByte c.green)).set (4 * i + 2)
      (clampByte c.blue)).set (4 * i + 3) (clampByte (jsRound (c.alpha * 255))))

/-- The shared `while (--len)` pixel loop of `filter` and `filterUsingRGBA`
(lines 106-113 and 131-142): called with `len = length`, the predecrement
loop visits pixel indices `length-1, length-2, …, 1` — never index `0`.
`filterLoop fn data n` runs the body for indices `n, n-1, …, 1` and returns
the mutated buffer together with the read/write events in order. -/
def filterLoop (fn : RGBA → RGBA) (data : List ℕ) : ℕ → List ℕ × List Event
  | 0 => (data, [])
  | n + 1 =>
      let d := writeColor data (n + 1) (fn (pixelColor data (n + 1)))
      let rest := filterLoop fn d n
      (rest.1, Event.read (n + 1) :: Event.write (n + 1) :: rest.2)

/-- The `func` argument of `Canvas.prototype.filter`: either a function
value or a name looked up in the ambient `$` object (line 100). -/
inductive FuncArg where
  | fn (f : RGBA → RGBA)
  | name (s : String)

/-- Line 100: `func = Type.isFunction(func) ? func : $[func]`, the `$`
global modelled as the parameter `reg`. -/
def resolveFunc (reg : String → Option (RGBA → RGBA)) : FuncArg → Option (RGBA → RGBA)
  | .fn f => some f
  | .name s => reg s

/-- `Canvas.prototype.filter` (lines 98-118): when the canvas is set and the
argument resolves to a function, run the pixel loop and commit the buffer
to the surface once via `putImageData`; otherwise do nothing. -/
def Canvas.filter (reg : String → Option (RGBA → RGBA)) (c : Canvas)
    (func : FuncArg) : Canvas × List Event :=
  if c.isSet then
    match resolveFunc reg func with
    | some fn =>
        let r := filterLoop fn c.data (c.length - 1)
        ({ c with data := r.1 }, r.2 ++ [Event.commit r.1])
    | none => (c, [])
  else (c, [])

/-- `Canvas.prototype.filterUsingRGBA` (lines 125-147): look the name up on
`RGBA.prototype` (the method table, repository code outside `src/`, is the
parameter `proto`; a method takes its `args` value and mutates the color).
When the method exists, run the identical pixel loop and commit once;
when it does not, fall through silently. -/
def Canvas.filterUsingRGBA (proto : String → Option (ℚ → RGBA → RGBA))
    (c : Canvas) (func : String) (args : ℚ) : Canvas × List Event :=
  if c.isSet then
    match proto func with
    | some m =>
        let r := filterLoop (m args) c.data (c.length - 1)
        ({ c with data := r.1 }, r.2 ++ [Event.commit r.1])
    | none => (c, [])
  else (c, [])

/-- The nine translation offsets of a blur pass (lines 159-163): the `x`
loop is outer and the `y` loop inner, both running `-1, 0, 1`. -/
def blurOffsets : List (ℤ × ℤ) :=
  [(-1, -1), (-1, 0), (-1, 1), (0, -1), (0, 0), (0, 1), (1, -1), (1, 0), (1, 1)]

/-- The nine `drawImage` events of one blur pass, each recorded with the
`globalAlpha` in force. -/
def drawPass (alpha : ℚ) : List Event :=
  blurOffsets.map (fun o => Event.draw o.1 o.2 alpha)

/-- Lines 155 and 233: `passes = !passes || !Type.isInteger(passes) ? 1 :
passes`.  On the integer inputs modelled here, `undefined` (`none`) and the
falsy `0` both fall back to the default `1`. -/
def effectivePasses (passes : Option ℕ) : ℕ :=
  match passes with
  | none => 1
  | some 0 => 1
  | some (n + 1) => n + 1

/-- Line 234: `decay = !decay || !Type.isNumber(decay) ? 0.05 : decay`.
On the numeric inputs modelled here, `undefined` (`none`) and the falsy
`0` both fall back to the default `0.05`. -/
def effectiveDecay (decay : Option ℚ) : ℚ :=
  match decay with
  | none => 0.05
  | some d => if d = 0 then 0.05 else d

/-- `Canvas.prototype.blur` (lines 153-168): when the canvas is set, put
`globalAlpha` at `0.125`, run `effectivePasses` passes of the nine offset
`drawImage` calls, then set `globalAlpha` back to `1.0`.  The draws are
recorded as events (the compositing effect of `drawImage` on the surface is
external); the `globalAlpha` each draw uses is carried in its event. -/
def Canvas.blur (c : Canvas) (passes : Option ℕ) : Canvas × List Event :=
  if c.isSet then
    ({ c with globalAlpha := 1 },
     List.flatten (List.replicate (effectivePasses passes) (drawPass 0.125)))
  else (c, [])

/-- The `while (passes--)` loop of `Canvas.prototype.noise` (lines 236-238):
each iteration is `this.filterUsingRGBA('mutate', decay)`. -/
def noiseLoop (proto : String → Option (ℚ → RGBA → RGBA)) (decay : ℚ) :
    ℕ → Canvas → Canvas × List Event
  | 0, c => (c, [])
  | n + 1, c =>
      let r := c.filterUsingRGBA proto "mutate" decay
      let rest := noiseLoop proto decay n r.1
      (rest.1, r.2 ++ rest.2)

/-- `Canvas.prototype.noise` (lines 231-240). -/
def Canvas.noise (proto : String → Option (ℚ → RGBA → RGBA)) (c : Canvas)
    (passes : Option ℕ) (decay : Option ℚ) : Canvas × List Event :=
  if c.isSet then
    noiseLoop proto (effectiveDecay decay) (effectivePasses passes) c
  else (c, [])

/-- `Canvas.prototype.age` (lines 245-250): one `filter(mutate, 0.05)` pass
followed by `blur(1)`.  The global `mutate` function lives outside `src/`
and is a parameter. -/
def Canvas.age (reg : String → Option (RGBA → RGBA)) (mutate : RGBA → ℚ → RGBA)
    (c : Canvas) : Canvas × List Event :=
  if c.isSet then
    let r1 := c.filter reg (.fn (fun col => mutate col 0.05))
    let r2 := r1.1.blur (some 1)
    (r2.1, r1.2 ++ r2.2)
  else (c, [])

/-- `Canvas.prototype.mix` (lines 256-263): normalize the color argument
with `new RGB(color)` and run `filter(mix, color)`.  The `RGB` constructor
and the global `mix` filter live outside `src/`; the partially applied
filter is the parameter `mixFn`. -/
def Canvas.mix (reg : String → Option (RGBA → RGBA)) (mixFn : RGBA → RGBA)
    (c : Canvas) : Canvas × List Event :=
  if c.isSet then c.filter reg (.fn mixFn) else (c, [])

/-- One `push` of `getColors` (lines 194-203): a JS-object histogram entry
is created at `1` or incremented. -/
def histPush {K : Type} [DecidableEq K] (k : K) (out : List (K × ℕ)) :
    List (K × ℕ) :=
  if out.any (fun p => decide (p.1 = k)) then
    out.map (fun p => if p.1 = k then (p.1, p.2 + 1) else p)
  else
    out ++ [(k, 1)]

/-- The `while (--len)` loop of `getColors` (lines 205-210): pushes pixels
`n, n-1, …, 1`. -/
def getColorsLoop {K : Type} [DecidableEq K] (key : RGBA → K)
    (data : List ℕ) : ℕ → List (K × ℕ) → List (K × ℕ)
  | 0, out => out
  | n + 1, out => getColorsLoop key data n (histPush (key (pixelColor data (n + 1))) out)

/-- `Canvas.prototype.getColors` (lines 176-224): `null` (`none`) when the
canvas is not set; otherwise one histogram pass, then pruning of entries
below `minimum` when `minimum` is a positive integer.  The code keys each
pixel by `RGBA.toString()` or, when `useHex`, by `RGBA.toHex()`; both live
outside `src/`, so the key function is the parameter `key`. -/
def Canvas.getColors {K : Type} [DecidableEq K] (key : RGBA → K) (c : Canvas)
    (minimum : Option ℕ) : Option (List (K × ℕ)) :=
  if c.isSet then
    let out := getColorsLoop key c.data (c.length - 1) []
    some (match minimum with
          | some m => if 0 < m then out.filter (fun p => decide (m ≤ p.2)) else out
          | none => out)
  else none

/-- Total count held by a histogram. -/
def histSum {K : Type} (out : List (K × ℕ)) : ℕ :=
  (out.map Prod.snd).sum

/-- Concrete registry: an ambient `$` object holding no filter functions. -/
def emptyReg : String → Option (RGBA → RGBA) := fun _ => none

/-- Concrete `RGBA.prototype` method table exposing only `mutate`, as the
identity on the color (randomness plays no role in the claims below). -/
def protoMut : String → Option (ℚ → RGBA → RGBA) :=
  fun s => if s = "mutate" then some (fun _ col => col) else none

/-- Concrete `RGBA.prototype` method table exposing no methods. -/
def protoNone : String → Option (ℚ → RGBA → RGBA) := fun _ => none

/-- Concrete histogram key: the full component tuple (an injective stand-in
for the canonical `toString` identifier). -/
def keyRGBA : RGBA → ℤ × ℤ × ℤ × ℚ :=
  fun c => (c.red, c.green, c.blue, c.alpha)

/-- The spec scenario input: a 2×2 all-white opaque buffer. -/
def white2x2 : Canvas :=
  ⟨2, 2, 4, List.replicate 16 255, 1⟩

/-- A 1×1 canvas holding one pixel `(10, 20, 30, 255)`. -/
def onePixel : Canvas :=
  ⟨1, 1, 1, [10, 20, 30, 255], 1⟩

/-- A canvas whose buffer was never set: `length = 0`, no bytes. -/
def emptyCanvas : Canvas :=
  ⟨0, 0, 0, [], 1⟩

/-! Helper lemmas (shared; not tied to a single claim). -/

/-- The pixel loop of `filter`/`filterUsingRGBA` emits only reads and
writes: no commit event appears inside the loop. -/
theorem filterLoop_commit_free (fn : RGBA → RGBA) (n : ℕ) :
    ∀ (data : List ℕ), ∀ e ∈ (filterLoop fn data n).2, Event.isCommit e = false := by
  induction n with
  | zero =>
      intro data e he
      simp [filterLoop] at he
  | succ n ih =>
      intro data e he
      simp only [filterLoop, List.mem_cons] at he
      rcases he with rfl | rfl | he
      · rfl
      · rfl
      · exact ih _ e he

/-- Filtering the pixel-loop trace for commits yields nothing. -/
theorem filterLoop_filter_commit (fn : RGBA → RGBA) (n : ℕ) (data : List ℕ) :
    (filterLoop fn data n).2.filter Event.isCommit = [] := by
  rw [List.filter_eq_nil_iff]
  intro e he
  simp [filterLoop_commit_free fn n data e he]

/-- `filterUsingRGBA` never changes the cached pixel count. -/
theorem filterUsingRGBA_length (proto : String → Option (ℚ → RGBA → RGBA))
    (c : Canvas) (f : String) (a : ℚ) :
    (c.filterUsingRGBA proto f a).1.length = c.length := by
  unfold Canvas.filterUsingRGBA
  by_cases hc : c.isSet
  · simp only [hc, if_true]
    cases proto f <;> rfl
  · simp [hc]

/-- A `filterUsingRGBA` pass whose method exists on a set canvas commits
exactly once. -/
theorem filterUsingRGBA_filter_commit (proto : String → Option (ℚ → RGBA → RGBA))
    (m : ℚ → RGBA → RGBA) (c : Canvas) (f : String) (a : ℚ)
    (hc : c.isSet = true) (hm : proto f = some m) :
    (c.filterUsingRGBA proto f a).2.filter Event.isCommit =
      [Event.commit (filterLoop (m a) c.data (c.length - 1)).1] := by
  simp only [Canvas.filterUsingRGBA, hc, if_true, hm, List.filter_append,
    filterLoop_filter_commit]
  rfl

/-- Each iteration of the `noise` loop (on a set canvas whose prototype
table has `mutate`) commits exactly once, and the pixel count never
changes. -/
theorem noiseLoop_commits (proto : String → Option (ℚ → RGBA → RGBA))
    (m : ℚ → RGBA → RGBA) (d : ℚ) (hm : proto "mutate" = some m) (n : ℕ) :
    ∀ c : Canvas, c.isSet = true →
      ((noiseLoop proto d n c).2.filter Event.isCommit).length = n ∧
      (noiseLoop proto d n c).1.length = c.length := by
  induction n with
  | zero =>
      intro c hc
      simp [noiseLoop]
  | succ n ih =>
      intro c hc
      have hlen := filterUsingRGBA_length proto c "mutate" d
      have hc2 : (c.filterUsingRGBA proto "mutate" d).1.isSet = true := by
        show decide (0 < (c.filterUsingRGBA proto "mutate" d).1.length) = true
        rw [hlen]
        exact hc
      have hrec := ih (c.filterUsingRGBA proto "mutate" d).1 hc2
      have hpass := filterUsingRGBA_filter_commit proto m c "mutate" d hc hm
      constructor
      · simp only [noiseLoop, List.filter_append, List.length_append, hpass,
          hrec.1, List.length_cons, List.length_nil]
        omega
      · simp only [noiseLoop, hrec.2, hlen]

/-- Counting an element across `n` flattened copies of a list. -/
theorem count_flatten_replicate {α : Type} [DecidableEq α] (l : List α) (a : α) :
    ∀ n : ℕ, ((List.replicate n l).flatten.count a) = n * l.count a := by
  intro n
  induction n with
  | zero => simp
  | succ n ih =>
      simp only [List.replicate_succ, List.flatten_cons, List.count_append, ih]
      ring

/-- Length of `n` flattened copies of a list. -/
theorem length_flatten_replicate {α : Type} (l : List α) :
    ∀ n : ℕ, ((List.replicate n l).flatten.length) = n * l.length := by
  intro n
  induction n with
  | zero => simp
  | succ n ih =>
      simp only [List.replicate_succ, List.flatten_cons, List.length_append, ih]
      ring

/-- Membership in `n` flattened copies of a list. -/
theorem mem_flatten_replicate {α : Type} (l : List α) (n : ℕ) (a : α)
    (h : a ∈ (List.replicate n l).flatten) : a ∈ l := by
  induction n with
  | zero => simp at h
  | succ n ih =>
      simp only [List.replicate_succ, List.flatten_cons, List.mem_append] at h
      rcases h with h | h
      · exact h
      · exact ih h

/-! Claim theorems. -/

/-- C1: the claim fails on the code.  On the spec's own scenario — a 2×2
all-white opaque buffer filtered with `invert` — the pass leaves pixel
index 0 untouched (bytes `255,255,255,255`) instead of transforming every
pixel of `[0, length)`: the `while (--len)` loop only visits indices
`3, 2, 1`.  This evaluates the embedded `filter` at that failing input. -/
theorem filter_skips_pixel_zero_on_white2x2 :
    (white2x2.filter emptyReg (.fn invert)).1.data =
      [255, 255, 255, 255, 0, 0, 0, 255, 0, 0, 0, 255, 0, 0, 0, 255] := by
  with_unfolding_all decide

/-- C2: the claim fails on the code.  On a 2×2 all-white buffer the
histogram built by `getColors` (no pruning) holds a total count of 3, not
`width*height = 4`: the `while (--len)` loop pushes only pixels `3, 2, 1`.
This evaluates the embedded `getColors` at that failing input. -/
theorem histogram_undercounts_on_white2x2 :
    Option.map histSum (white2x2.getColors keyRGBA none) = some 3 ∧
      white2x2.width * white2x2.height = 4 := by
  constructor
  · with_unfolding_all decide
  · rfl

/-- C7: on any set canvas, `filterUsingRGBA` with a method name absent from
the `RGBA` prototype table is a silent no-op: the returned state is the
original canvas (no pixel byte changes) and the event trace is empty (no
pixel read, no pixel write, no commit); the operation is total, so no
error is raised. -/
theorem unknown_method_is_silent_noop (c : Canvas)
    (proto : String → Option (ℚ → RGBA → RGBA)) (f : String) (a : ℚ)
    (hset : c.isSet = true) (hm : proto f = none) :
    c.filterUsingRGBA proto f a = (c, []) := by
  simp [Canvas.filterUsingRGBA, hset, hm]

/-- C7 witness: the empty prototype table on the concrete 2×2 canvas. -/
theorem unknown_method_is_silent_noop_witness :
    white2x2.filterUsingRGBA protoNone "invert" 0 = (white2x2, []) :=
  unknown_method_is_silent_noop white2x2 protoNone "invert" 0 (by decide) rfl

/-- C9: on a one-pixel canvas (`length = 1`) a `filter` pass with any
function argument mutates no byte — `while (--len)` runs zero iterations —
yet still commits the unchanged buffer to the surface exactly once. -/
theorem single_pixel_filter_commits_unchanged (c : Canvas)
    (reg : String → Option (RGBA → RGBA)) (fn : RGBA → RGBA)
    (h1 : c.length = 1) :
    c.filter reg (.fn fn) = (c, [Event.commit c.data]) := by
  have hset : c.isSet = true := by simp [Canvas.isSet, h1]
  simp [Canvas.filter, hset, resolveFunc, h1, filterLoop]
  rw [← h1]

/-- C9 witness: the concrete 1×1 canvas with `invert`. -/
theorem single_pixel_filter_commits_unchanged_witness :
    onePixel.filter emptyReg (.fn invert) = (onePixel, [Event.commit onePixel.data]) :=
  single_pixel_filter_commits_unchanged onePixel emptyReg invert rfl

/-- C10: on any set canvas, `filter` with an argument that is not a
function and whose name the ambient `$` registry does not resolve leaves
the canvas (pixel bytes included) unchanged and emits no event at all — in
particular no commit reaches the surface. -/
theorem unknown_filter_name_is_noop (c : Canvas)
    (reg : String → Option (RGBA → RGBA)) (s : String)
    (hset : c.isSet = true) (hreg : reg s = none) :
    c.filter reg (.name s) = (c, []) := by
  simp [Canvas.filter, resolveFunc, hset, hreg]

/-- C10 witness: the empty registry on the concrete 2×2 canvas. -/
theorem unknown_filter_name_is_noop_witness :
    white2x2.filter emptyReg (.name "sepia") = (white2x2, []) :=
  unknown_filter_name_is_noop white2x2 emptyReg "sepia" (by decide) rfl

/-- C5: on a canvas whose buffer was never set (`length = 0`) every
mutating operation — `filter`, `filterUsingRGBA`, `blur`, `noise`, `age`,
`mix` — returns the state unchanged with an empty event trace (no buffer
write, no surface commit, no draw), and `getColors` returns the `null`
signal; every operation is total, so none raises. -/
theorem unset_canvas_operations_are_noops (c : Canvas)
    (reg : String → Option (RGBA → RGBA)) (func : FuncArg)
    (proto : String → Option (ℚ → RGBA → RGBA)) (f : String) (a : ℚ)
    (passes : Option ℕ) (decay : Option ℚ) (mutate : RGBA → ℚ → RGBA)
    (mixFn : RGBA → RGBA) (K : Type) [DecidableEq K] (key : RGBA → K)
    (minimum : Option ℕ) (h0 : c.length = 0) :
    c.filter reg func = (c, []) ∧
    c.filterUsingRGBA proto f a = (c, []) ∧
    c.blur passes = (c, []) ∧
    c.noise proto passes decay = (c, []) ∧
    c.age reg mutate = (c, []) ∧
    c.mix reg mixFn = (c, []) ∧
    c.getColors key minimum = none := by
  have hset : c.isSet = false := by simp [Canvas.isSet, h0]
  refine ⟨?_, ?_, ?_, ?_, ?_, ?_, ?_⟩ <;>
    simp [Canvas.filter, Canvas.filterUsingRGBA, Canvas.blur, Canvas.noise,
      Canvas.age, Canvas.mix, Canvas.getColors, hset]

/-- C5 witness: the concrete unset canvas with concrete collaborators. -/
theorem unset_canvas_operations_are_noops_witness :
    emptyCanvas.filter emptyReg (.fn invert) = (emptyCanvas, []) ∧
    emptyCanvas.filterUsingRGBA protoMut "mutate" 0 = (emptyCanvas, []) ∧
    emptyCanvas.blur (some 1) = (emptyCanvas, []) ∧
    emptyCanvas.noise protoMut (some 1) none = (emptyCanvas, []) ∧
    emptyCanvas.age emptyReg (fun col _ => col) = (emptyCanvas, []) ∧
    emptyCanvas.mix emptyReg invert = (emptyCanvas, []) ∧
    emptyCanvas.getColors keyRGBA none = none :=
  unset_canvas_operations_are_noops emptyCanvas emptyReg (.fn invert) protoMut
    "mutate" 0 (some 1) none (fun col _ => col) invert (ℤ × ℤ × ℤ × ℚ)
    keyRGBA none rfl

/-- C3 counterexample: on the concrete 2×2 canvas, `blur(0)` issues nine
`drawImage` operations, not zero: the falsy check on line 155 turns the
argument `0` into the default one pass. -/
theorem blur_zero_draws_nine_cx :
    ((white2x2.blur (some 0)).2.filter Event.isDraw).length = 9 ∧
      ¬ ((white2x2.blur (some 0)).2.filter Event.isDraw).length = 0 := by
  with_unfolding_all decide

/-- C3 amended: on any set canvas, `blur(0)` is treated as the default
single pass: it behaves exactly as `blur(1)`, emitting the nine offset
draws at alpha `0.125`, leaving the pixel bytes untouched, and returning
with `globalAlpha` restored to the default `1.0`. -/
theorem blur_zero_is_default_single_pass (c : Canvas) (hset : c.isSet = true) :
    c.blur (some 0) = c.blur (some 1) ∧
    (c.blur (some 0)).2 = drawPass 0.125 ∧
    (c.blur (some 0)).1 = { c with globalAlpha := 1 } := by
  refine ⟨rfl, ?_, ?_⟩ <;> simp [Canvas.blur, hset, effectivePasses]

/-- C3 amended witness: the concrete 2×2 canvas. -/
theorem blur_zero_is_default_single_pass_witness :
    white2x2.blur (some 0) = white2x2.blur (some 1) ∧
    (white2x2.blur (some 0)).2 = drawPass 0.125 ∧
    (white2x2.blur (some 0)).1 = { white2x2 with globalAlpha := 1 } :=
  blur_zero_is_default_single_pass white2x2 (by decide)

/-- C4 counterexample: the decay default of `noise` (line 234) is `0.05`,
not the claimed `0.025`. -/
theorem noise_decay_default_cx :
    effectiveDecay none = 0.05 ∧ ¬ effectiveDecay none = 0.025 := by
  constructor
  · rfl
  · with_unfolding_all decide

/-- C4 amended: when `noise` runs on a set canvas without a decay
argument, the mutate passes use decay `0.05` — the same value the aging
path passes — and the `mutate` filter pass repeats exactly
`effectivePasses passes` times (each pass committing once), where an
absent `passes` defaults to `1`. -/
theorem noise_default_decay_and_passes (proto : String → Option (ℚ → RGBA → RGBA))
    (m : ℚ → RGBA → RGBA) (c : Canvas) (passes : Option ℕ)
    (hset : c.isSet = true) (hm : proto "mutate" = some m) :
    c.noise proto passes none = noiseLoop proto 0.05 (effectivePasses passes) c ∧
    ((c.noise proto passes none).2.filter Event.isCommit).length =
      effectivePasses passes ∧
    effectivePasses none = 1 := by
  have h1 : c.noise proto passes none =
      noiseLoop proto 0.05 (effectivePasses passes) c := by
    simp [Canvas.noise, hset, effectiveDecay]
  refine ⟨h1, ?_, rfl⟩
  rw [h1]
  exact (noiseLoop_commits proto m 0.05 hm (effectivePasses passes) c hset).1

/-- C4 amended witness: the concrete 2×2 canvas, two passes, identity
mutate method. -/
theorem noise_default_decay_and_passes_witness :
    white2x2.noise protoMut (some 2) none =
      noiseLoop protoMut 0.05 (effectivePasses (some 2)) white2x2 ∧
    ((white2x2.noise protoMut (some 2) none).2.filter Event.isCommit).length =
      effectivePasses (some 2) ∧
    effectivePasses none = 1 :=
  noise_default_decay_and_passes protoMut (fun _ col => col) white2x2 (some 2)
    (by decide) rfl

/-- C6: on any set canvas, a `filter` pass whose argument resolves to a
function, and a `filterUsingRGBA` pass whose method exists, each put
exactly one commit on the surface, as the final event after the whole
per-pixel loop: the trace is the loop's read/write events — which contain
no commit — followed by the single `putImageData` commit of the mutated
buffer. -/
theorem filter_commits_once_after_loop (c : Canvas)
    (reg : String → Option (RGBA → RGBA)) (func : FuncArg) (fn : RGBA → RGBA)
    (proto : String → Option (ℚ → RGBA → RGBA)) (f : String) (a : ℚ)
    (m : ℚ → RGBA → RGBA) (hset : c.isSet = true)
    (hres : resolveFunc reg func = some fn) (hm : proto f = some m) :
    (∃ pre d, (c.filter reg func).2 = pre ++ [Event.commit d] ∧
        ∀ e ∈ pre, Event.isCommit e = false) ∧
    (∃ pre d, (c.filterUsingRGBA proto f a).2 = pre ++ [Event.commit d] ∧
        ∀ e ∈ pre, Event.isCommit e = false) := by
  constructor
  · refine ⟨(filterLoop fn c.data (c.length - 1)).2,
      (filterLoop fn c.data (c.length - 1)).1, ?_, ?_⟩
    · simp [Canvas.filter, hset, hres]
    · exact filterLoop_commit_free fn (c.length - 1) c.data
  · refine ⟨(filterLoop (m a) c.data (c.length - 1)).2,
      (filterLoop (m a) c.data (c.length - 1)).1, ?_, ?_⟩
    · simp [Canvas.filterUsingRGBA, hset, hm]
    · exact filterLoop_commit_free (m a) (c.length - 1) c.data

/-- C6 witness: the concrete 2×2 canvas, `invert` as the filter function
and the identity `mutate` method. -/
theorem filter_commits_once_after_loop_witness :
    (∃ pre d, (white2x2.filter emptyReg (.fn invert)).2 = pre ++ [Event.commit d] ∧
        ∀ e ∈ pre, Event.isCommit e = false) ∧
    (∃ pre d, (white2x2.filterUsingRGBA protoMut "mutate" 0.05).2 =
        pre ++ [Event.commit d] ∧
        ∀ e ∈ pre, Event.isCommit e = false) :=
  filter_commits_once_after_loop white2x2 emptyReg (.fn invert) invert protoMut
    "mutate" 0.05 (fun _ col => col) (by decide) rfl rfl

/-- C8: on any set canvas and any positive integer `passes`, `blur` emits
exactly `9 * passes` draw operations, every one a `drawImage` at global
alpha `0.125` translated by some `(dx, dy)` with `dx, dy ∈ {-1, 0, 1}`;
each of the nine offsets is drawn exactly `passes` times (once per pass);
and on return `globalAlpha = 1.0` with the pixel bytes untouched. -/
theorem blur_passes_draw_operations (c : Canvas) (p : ℕ)
    (hset : c.isSet = true) (hp : 1 ≤ p) :
    (c.blur (some p)).2.length = 9 * p ∧
    (∀ e ∈ (c.blur (some p)).2, ∃ dx dy : ℤ, e = Event.draw dx dy 0.125 ∧
        (dx = -1 ∨ dx = 0 ∨ dx = 1) ∧ (dy = -1 ∨ dy = 0 ∨ dy = 1)) ∧
    (∀ dx dy : ℤ, (dx = -1 ∨ dx = 0 ∨ dx = 1) → (dy = -1 ∨ dy = 0 ∨ dy = 1) →
        (c.blur (some p)).2.count (Event.draw dx dy 0.125) = p) ∧
    (c.blur (some p)).1.globalAlpha = 1 ∧
    (c.blur (some p)).1.data = c.data := by
  have hep : effectivePasses (some p) = p := by
    cases p with
    | zero => omega
    | succ n => rfl
  have htr : (c.blur (some p)).2 = (List.replicate p (drawPass 0.125)).flatten := by
    simp [Canvas.blur, hset, hep]
  refine ⟨?_, ?_, ?_, ?_, ?_⟩
  · rw [htr, length_flatten_replicate]
    have h9 : (drawPass (0.125 : ℚ)).length = 9 := rfl
    rw [h9, Nat.mul_comm]
  · intro e he
    rw [htr] at he
    have he2 : e ∈ drawPass 0.125 := mem_flatten_replicate _ p e he
    simp only [drawPass, List.mem_map] at he2
    obtain ⟨o, ho, rfl⟩ := he2
    fin_cases ho <;> exact ⟨_, _, rfl, by decide⟩
  · intro dx dy hdx hdy
    rw [htr, count_flatten_replicate]
    have h1 : (drawPass (0.125 : ℚ)).count (Event.draw dx dy 0.125) = 1 := by
      rcases hdx with rfl | rfl | rfl <;> rcases hdy with rfl | rfl | rfl <;>
        with_unfolding_all decide
    rw [h1, Nat.mul_one]
  · simp [Canvas.blur, hset]
  · simp [Canvas.blur, hset]

/-- C8 witness: the concrete 2×2 canvas with a single pass. -/
theorem blur_passes_draw_operations_witness :
    (white2x2.blur (some 1)).2.length = 9 * 1 ∧
    (∀ e ∈ (white2x2.blur (some 1)).2, ∃ dx dy : ℤ,
        e = Event.draw dx dy 0.125 ∧
        (dx = -1 ∨ dx = 0 ∨ dx = 1) ∧ (dy = -1 ∨ dy = 0 ∨ dy = 1)) ∧
    (∀ dx dy : ℤ, (dx = -1 ∨ dx = 0 ∨ dx = 1) → (dy = -1 ∨ dy = 0 ∨ dy = 1) →
        (white2x2.blur (some 1)).2.count (Event.draw dx dy 0.125) = 1) ∧
    (white2x2.blur (some 1)).1.globalAlpha = 1 ∧
    (white2x2.blur (some 1)).1.data = white2x2.data :=
  blur_passes_draw_operations white2x2 1 (by decide) (by decide)

end CanvasJS
